import Mathlib

/-!
# SkewedLatest (internal/randvar/skewed_latest.go)

A shallow embedding of the `SkewedLatest` generator of package `randvar`.

* Go `uint64` values are natural numbers below `2^64`; the three arithmetic
  operations of the source (`max-min`, `max++`, `max - r`) are written with an
  explicit reduction modulo `2^64`.
* `*Zipf`, `NewZipf`, `(*Zipf).IncMax`, `(*Zipf).Uint64`, `defaultMax` and
  `defaultTheta` are declared in `zipf.go`, which is not among the sources.  The
  generator is therefore embedded over an arbitrary collaborator `ZipfOps`, and
  what the specification says about the collaborator is the predicate
  `ZipfContract`.
* The mutex `mu` serialises the methods; the embedding is the sequential
  semantics of one call at a time, with the state passed explicitly.
-/

namespace randvar

/-! ## Machine arithmetic -/

/-- The number of values of a Go `uint64`. -/
def uint64Size : Nat := 18446744073709551616

/-- Go `a - b` on `uint64` operands. -/
def sub64 (a b : Nat) : Nat := (a + uint64Size - b) % uint64Size

/-- Go `a + 1` (`a++`) on a `uint64` operand. -/
def inc64 (a : Nat) : Nat := (a + 1) % uint64Size

/-! ## The collaborator -/

/-- Modelled from the spec: the interface of the rank-skewed generator of
`zipf.go` (not among the sources) as `skewed_latest.go` uses it.  `Zipf` is the
value behind a `*Zipf`, `Err` the values of a non-nil `error`.

* `NewZipf rng min max theta` is `NewZipf(rng, min, max, theta)`: a generator or
  an error.
* `IncMax z` is `z.IncMax()`: the generator afterwards and the returned error
  (`none` is `nil`).
* `Uint64 z` is `z.Uint64()`: the generator afterwards and the sample.
* `defaultMax`, `defaultTheta` are the package constants of those names. -/
structure ZipfOps (Rng Theta Err Zipf : Type) where
  NewZipf : Rng → Nat → Nat → Theta → Except Err Zipf
  IncMax : Zipf → Zipf × Option Err
  Uint64 : Zipf → Zipf × Nat
  defaultMax : Nat
  defaultTheta : Theta

/-- Modelled from the spec: how the rank-skewed generator keeps its configured
upper rank `N` (section 3, "RankSkewedGenerator"), for an observation `rank` of
that rank.

* a generator constructed over `[0, N]` has upper rank `N`;
* `IncMax` grows the upper rank by exactly 1 when it succeeds, which it does
  only inside the `uint64` domain, and leaves it as it is when it fails;
* `Uint64` does not change the rank. -/
structure ZipfRank {Rng Theta Err Zipf : Type} (c : ZipfOps Rng Theta Err Zipf)
    (rank : Zipf → Nat) : Prop where
  new_rank : ∀ rng N theta z, c.NewZipf rng 0 N theta = .ok z → rank z = N
  inc_ok : ∀ z, (c.IncMax z).2 = none →
    rank (c.IncMax z).1 = rank z + 1 ∧ rank z + 1 < uint64Size
  inc_err : ∀ z e, (c.IncMax z).2 = some e → rank (c.IncMax z).1 = rank z
  sample_rank : ∀ z, rank (c.Uint64 z).1 = rank z

/-- Modelled from the spec: the contract of the rank-skewed generator (section
3): it keeps its rank as `ZipfRank` says, and `Uint64` returns one sample in
`[0, N]`. -/
structure ZipfContract {Rng Theta Err Zipf : Type} (c : ZipfOps Rng Theta Err Zipf)
    (rank : Zipf → Nat) extends ZipfRank c rank : Prop where
  sample_le : ∀ z, (c.Uint64 z).2 ≤ rank z

/-! ## The generator -/

/-- The fields of `SkewedLatest.mu` other than the lock. -/
structure SkewedLatest (Zipf : Type) where
  max : Nat
  zipf : Zipf
  deriving DecidableEq, Repr

section Generator

variable {Rng Theta Err Zipf : Type}

/-- `NewSkewedLatest(rng, min, max, theta)`: the returned pointer (`none` is
`nil`) and the returned error (`none` is `nil`). -/
def NewSkewedLatest (c : ZipfOps Rng Theta Err Zipf) (rng : Rng) (min max : Nat)
    (theta : Theta) : Option (SkewedLatest Zipf) × Option Err :=
  match c.NewZipf rng 0 (sub64 max min) theta with
  | .error err => (none, some err)
  | .ok zipf => (some { max := max, zipf := zipf }, none)

/-- `NewDefaultSkewedLatest(rng)`. -/
def NewDefaultSkewedLatest (c : ZipfOps Rng Theta Err Zipf) (rng : Rng) :
    Option (SkewedLatest Zipf) × Option Err :=
  NewSkewedLatest c rng 1 c.defaultMax c.defaultTheta

/-- `z.IncMax()`: the generator afterwards and the returned error. -/
def SkewedLatest.IncMax (c : ZipfOps Rng Theta Err Zipf) (z : SkewedLatest Zipf) :
    SkewedLatest Zipf × Option Err :=
  let r := c.IncMax z.zipf
  let z1 : SkewedLatest Zipf := { z with zipf := r.1 }
  let z2 : SkewedLatest Zipf :=
    if r.2.isNone then { z1 with max := inc64 z1.max } else z1
  (z2, r.2)

/-- `z.Uint64()`: the generator afterwards and the returned value. -/
def SkewedLatest.Uint64 (c : ZipfOps Rng Theta Err Zipf) (z : SkewedLatest Zipf) :
    SkewedLatest Zipf × Nat :=
  let r := c.Uint64 z.zipf
  ({ z with zipf := r.1 }, sub64 z.max r.2)

/-- One method call on a generator. -/
inductive Call where
  | IncMax
  | Uint64
  deriving DecidableEq, Repr

/-- The generator after one call. -/
def SkewedLatest.call (c : ZipfOps Rng Theta Err Zipf) (z : SkewedLatest Zipf) :
    Call → SkewedLatest Zipf
  | .IncMax => (z.IncMax c).1
  | .Uint64 => (z.Uint64 c).1

/-- The generator after a finite sequence of calls, one after another. -/
def SkewedLatest.run (c : ZipfOps Rng Theta Err Zipf) (z : SkewedLatest Zipf)
    (calls : List Call) : SkewedLatest Zipf :=
  calls.foldl (SkewedLatest.call c) z

end Generator

/-! ## A concrete collaborator -/

/-- Modelled from the spec: the two failures of the rank-skewed generator
(section 7). -/
inductive ZipfError where
  | InvalidParameter
  | RangeExhausted
  deriving DecidableEq, Repr

/-- Modelled from the spec: a rank-skewed generator, "constructed over `[0, N]`
with skew parameter `theta`" (section 3).  The injected random source is the
list of the deviates it has yet to produce. -/
structure SpecZipf where
  rng : List Nat
  N : Nat
  theta : Rat
  deriving DecidableEq

/-- Modelled from the spec: construction fails with `InvalidParameter` on a
negative range or a negative `theta` (section 3), and succeeds otherwise; the
generator over `[min, max]` has upper rank `max - min`. -/
def SpecZipf.New (rng : List Nat) (min max : Nat) (theta : Rat) :
    Except ZipfError SpecZipf :=
  if max < min then .error .InvalidParameter
  else if theta < 0 then .error .InvalidParameter
  else .ok { rng := rng, N := max - min, theta := theta }

/-- Modelled from the spec: `IncMax` grows the upper rank by exactly 1, and
fails with `RangeExhausted` where the growth would leave the numeric domain. -/
def SpecZipf.IncMax (z : SpecZipf) : SpecZipf × Option ZipfError :=
  if z.N + 1 < uint64Size then ({ z with N := z.N + 1 }, none)
  else (z, some .RangeExhausted)

/-- Modelled from the spec: `Uint64` returns one sample in `[0, N]`; the next
deviate of the source is reduced into that interval (the frequencies of the
ranks are outside the model). -/
def SpecZipf.Uint64 (z : SpecZipf) : SpecZipf × Nat :=
  match z.rng with
  | [] => (z, 0)
  | d :: ds => ({ z with rng := ds }, d % (z.N + 1))

/-- Modelled from the spec: the collaborator built from `SpecZipf`.  The spec
names the constants `defaultMax` and `defaultTheta` without their values; the
two values here are sample values, and no general statement below depends on
them. -/
def specZipf : ZipfOps (List Nat) Rat ZipfError SpecZipf where
  NewZipf := SpecZipf.New
  IncMax := SpecZipf.IncMax
  Uint64 := SpecZipf.Uint64
  defaultMax := 10000000000
  defaultTheta := mkRat 99 100

/-- The invariant of the generator for the lower bound `min` it was constructed
with: the collaborator's upper rank is `max - min` in `uint64` arithmetic, and
`max` is a `uint64`. -/
def InSync {Zipf : Type} (rank : Zipf → Nat) (min : Nat) (z : SkewedLatest Zipf) : Prop :=
  rank z.zipf = sub64 z.max min ∧ z.max < uint64Size

/-- The total weight, under the weights `w`, of those collaborator states of
`ys` that satisfy `p`: with `ys` the possible states of the collaborator and its
random source and `w` their frequencies, the frequency of the event `p`. -/
def weight {Zipf : Type} (w : Zipf → Nat) (ys : List Zipf) (p : Zipf → Bool) : Nat :=
  ((ys.filter p).map w).sum

/-! ## Arithmetic and unfolding lemmas -/

theorem sub64_of_le {a b : Nat} (hb : b ≤ a) (ha : a < uint64Size) : sub64 a b = a - b := by
  simp only [sub64, uint64Size] at *
  omega

theorem sub64_lt (a b : Nat) : sub64 a b < uint64Size := by
  simp only [sub64, uint64Size]
  omega

theorem inc64_of_lt {a : Nat} (ha : a + 1 < uint64Size) : inc64 a = a + 1 := by
  simp only [inc64, uint64Size] at *
  omega

theorem sub64_inc64 {a b : Nat} (ha : a < uint64Size) (hb : b < uint64Size)
    (h : sub64 a b + 1 < uint64Size) : sub64 (inc64 a) b = sub64 a b + 1 := by
  simp only [sub64, inc64, uint64Size] at *
  omega

section Lemmas

variable {Rng Theta Err Zipf : Type} (c : ZipfOps Rng Theta Err Zipf)

theorem IncMax_of_ok (z : SkewedLatest Zipf) (h : (c.IncMax z.zipf).2 = none) :
    z.IncMax c = ({ max := inc64 z.max, zipf := (c.IncMax z.zipf).1 }, none) := by
  simp [SkewedLatest.IncMax, h]

theorem IncMax_of_err (z : SkewedLatest Zipf) (e : Err) (h : (c.IncMax z.zipf).2 = some e) :
    z.IncMax c = ({ max := z.max, zipf := (c.IncMax z.zipf).1 }, some e) := by
  simp [SkewedLatest.IncMax, h]

theorem NewSkewedLatest_of_ok (rng : Rng) (min max : Nat) (theta : Theta) (zipf : Zipf)
    (h : c.NewZipf rng 0 (sub64 max min) theta = .ok zipf) :
    NewSkewedLatest c rng min max theta = (some { max := max, zipf := zipf }, none) := by
  simp [NewSkewedLatest, h]

theorem NewSkewedLatest_of_error (rng : Rng) (min max : Nat) (theta : Theta) (e : Err)
    (h : c.NewZipf rng 0 (sub64 max min) theta = .error e) :
    NewSkewedLatest c rng min max theta = (none, some e) := by
  simp [NewSkewedLatest, h]

/-- A generator that `NewSkewedLatest` returns is the caller's `max` with the
collaborator constructed over `[0, max-min]`. -/
theorem NewSkewedLatest_some (rng : Rng) (min max : Nat) (theta : Theta)
    (z : SkewedLatest Zipf) (e : Option Err)
    (h : NewSkewedLatest c rng min max theta = (some z, e)) :
    z.max = max ∧ c.NewZipf rng 0 (sub64 max min) theta = .ok z.zipf := by
  unfold NewSkewedLatest at h
  split at h
  · simp at h
  · next zipf hz =>
    simp only [Prod.mk.injEq, Option.some.injEq] at h
    rw [← h.1]
    exact ⟨rfl, hz⟩

variable {c} {rank : Zipf → Nat}

theorem InSync_new (hc : ZipfRank c rank) (rng : Rng) (min max : Nat) (theta : Theta)
    (z : SkewedLatest Zipf) (e : Option Err) (hmax : max < uint64Size)
    (h : NewSkewedLatest c rng min max theta = (some z, e)) : InSync rank min z := by
  obtain ⟨h1, h2⟩ := NewSkewedLatest_some c rng min max theta z e h
  exact ⟨by rw [hc.new_rank _ _ _ _ h2, h1], by rw [h1]; exact hmax⟩

theorem InSync_IncMax (hc : ZipfRank c rank) {min : Nat} (hmin : min < uint64Size)
    {z : SkewedLatest Zipf} (h : InSync rank min z) : InSync rank min (z.IncMax c).1 := by
  obtain ⟨h1, h2⟩ := h
  cases hr : (c.IncMax z.zipf).2 with
  | none =>
    obtain ⟨k1, k2⟩ := hc.inc_ok z.zipf hr
    rw [IncMax_of_ok c z hr]
    refine ⟨?_, ?_⟩
    · show rank (c.IncMax z.zipf).1 = sub64 (inc64 z.max) min
      rw [k1, h1, sub64_inc64 h2 hmin (by rw [← h1]; exact k2)]
    · show inc64 z.max < uint64Size
      simp only [inc64, uint64Size]
      omega
  | some e =>
    rw [IncMax_of_err c z e hr]
    exact ⟨by show rank (c.IncMax z.zipf).1 = sub64 z.max min; rw [hc.inc_err z.zipf e hr, h1], h2⟩

theorem InSync_Uint64 (hc : ZipfRank c rank) {min : Nat}
    {z : SkewedLatest Zipf} (h : InSync rank min z) : InSync rank min (z.Uint64 c).1 := by
  obtain ⟨h1, h2⟩ := h
  exact ⟨by show rank (c.Uint64 z.zipf).1 = sub64 z.max min; rw [hc.sample_rank, h1], h2⟩

theorem InSync_run (hc : ZipfRank c rank) {min : Nat} (hmin : min < uint64Size)
    (calls : List Call) :
    ∀ {z : SkewedLatest Zipf}, InSync rank min z → InSync rank min (z.run c calls) := by
  induction calls with
  | nil => intro z h; exact h
  | cons a calls ih =>
    intro z h
    show InSync rank min (SkewedLatest.run c (z.call c a) calls)
    apply ih
    cases a with
    | IncMax => exact InSync_IncMax hc hmin h
    | Uint64 => exact InSync_Uint64 hc h

/-- In a state whose collaborator rank is `max - min`, with `min ≤ max`, the
value `Uint64` returns lies in `[min, max]`. -/
theorem Uint64_mem_of_InSync (hc : ZipfContract c rank) {min : Nat}
    {z : SkewedLatest Zipf} (h : InSync rank min z) (hle : min ≤ z.max) :
    min ≤ (z.Uint64 c).2 ∧ (z.Uint64 c).2 ≤ z.max := by
  obtain ⟨h1, h2⟩ := h
  have hs := hc.sample_le z.zipf
  rw [h1, sub64_of_le hle h2] at hs
  show min ≤ sub64 z.max (c.Uint64 z.zipf).2 ∧ sub64 z.max (c.Uint64 z.zipf).2 ≤ z.max
  rw [sub64_of_le (by omega) h2]
  omega

end Lemmas

/-- The collaborator `specZipf` keeps its rank `N` as `ZipfRank` says. -/
theorem specZipf_rank : ZipfRank specZipf SpecZipf.N where
  new_rank := by
    intro rng N theta z h
    simp only [specZipf, SpecZipf.New] at h
    split at h
    · simp at h
    · split at h
      · simp at h
      · simp only [Except.ok.injEq] at h
        rw [← h]
        simp
  inc_ok := by
    intro z h
    simp only [specZipf, SpecZipf.IncMax] at h ⊢
    split at h
    · next hlt => simp [hlt]
    · simp at h
  inc_err := by
    intro z e h
    simp only [specZipf, SpecZipf.IncMax] at h ⊢
    split at h
    · simp at h
    · next hlt => simp [hlt]
  sample_rank := by
    intro z
    simp only [specZipf, SpecZipf.Uint64]
    split <;> rfl

/-- The collaborator `specZipf` satisfies the contract, with `N` as its rank. -/
theorem specZipf_contract : ZipfContract specZipf SpecZipf.N where
  toZipfRank := specZipf_rank
  sample_le := by
    intro z
    simp only [specZipf, SpecZipf.Uint64]
    split
    · exact Nat.zero_le _
    · exact Nat.le_of_lt_succ (Nat.mod_lt _ (Nat.succ_pos _))

section Lemmas

variable {Rng Theta Err Zipf : Type} (c : ZipfOps Rng Theta Err Zipf)

/-- While `max` plus the number of `IncMax` calls stays below `2^64`, `max`
does not go down along a run. -/
theorem le_run_max (calls : List Call) :
    ∀ (z : SkewedLatest Zipf), z.max + calls.count Call.IncMax < uint64Size →
      z.max ≤ (z.run c calls).max := by
  induction calls with
  | nil => intro z _; exact Nat.le_refl _
  | cons a calls ih =>
    intro z h
    show z.max ≤ (SkewedLatest.run c (z.call c a) calls).max
    cases a with
    | Uint64 =>
      have h2 : (z.call c Call.Uint64).max = z.max := rfl
      rw [List.count_cons_of_ne (by decide)] at h
      exact h2 ▸ ih (z.call c Call.Uint64) (by rw [h2]; exact h)
    | IncMax =>
      rw [List.count_cons_self] at h
      have h2 : (z.call c Call.IncMax).max = z.max ∨ (z.call c Call.IncMax).max = z.max + 1 := by
        show (z.IncMax c).1.max = z.max ∨ (z.IncMax c).1.max = z.max + 1
        cases hr : (c.IncMax z.zipf).2 with
        | none =>
          rw [IncMax_of_ok c z hr]
          exact Or.inr (inc64_of_lt (by omega))
        | some e =>
          rw [IncMax_of_err c z e hr]
          exact Or.inl rfl
      have h3 := ih (z.call c Call.IncMax) (by omega)
      omega

/-- `Uint64` calls alone leave `max` as it is. -/
theorem run_replicate_Uint64_max (k : Nat) :
    ∀ (z : SkewedLatest Zipf), (z.run c (List.replicate k Call.Uint64)).max = z.max := by
  induction k with
  | zero => intro z; rfl
  | succ k ih =>
    intro z
    show (SkewedLatest.run c (z.call c Call.Uint64) (List.replicate k Call.Uint64)).max = z.max
    rw [ih]
    rfl

/-- In a generator with `max = m`, a sample `r` with `min + r ≤ m` gives the
value `m - r`. -/
theorem Uint64_value_of_le (m : Nat) (y : Zipf) (hm : m < uint64Size)
    (hr : (c.Uint64 y).2 ≤ m) :
    ((SkewedLatest.mk m y).Uint64 c).2 = m - (c.Uint64 y).2 :=
  sub64_of_le hr hm

theorem weight_congr (w : Zipf → Nat) (ys : List Zipf) (p q : Zipf → Bool)
    (h : ∀ y ∈ ys, p y = q y) : weight w ys p = weight w ys q := by
  unfold weight
  rw [List.filter_congr h]

theorem weight_eq_zero (w : Zipf → Nat) (ys : List Zipf) (p : Zipf → Bool)
    (h : ∀ y ∈ ys, p y = false) : weight w ys p = 0 := by
  unfold weight
  have : ys.filter p = [] := List.filter_eq_nil_iff.mpr (fun y hy => by simp [h y hy])
  rw [this]
  rfl

end Lemmas

/-! ## The claims -/

section Claims

variable {Rng Theta Err Zipf : Type}

/-- C1 (as amended).  For a collaborator that keeps its contract and a generator
constructed by `NewSkewedLatest(rng, min, max, theta)` with `min ≤ max`, after
any finite sequence of `IncMax` and `Uint64` calls: a value returned by `Uint64`
lies in `[min, current max]` whenever `min ≤ current max`, that is, as long as
`max` has not wrapped around `2^64`; and `min ≤ current max` holds while `max`
plus the number of `IncMax` calls made is below `2^64`. -/
theorem C1_uint64_within_bounds (c : ZipfOps Rng Theta Err Zipf) (rank : Zipf → Nat)
    (hc : ZipfContract c rank) (rng : Rng) (min max : Nat) (theta : Theta)
    (z0 : SkewedLatest Zipf) (hle : min ≤ max) (hmax : max < uint64Size)
    (hnew : NewSkewedLatest c rng min max theta = (some z0, none)) :
    (∀ calls : List Call, min ≤ (z0.run c calls).max →
      min ≤ ((z0.run c calls).Uint64 c).2 ∧
        ((z0.run c calls).Uint64 c).2 ≤ (z0.run c calls).max) ∧
    (∀ calls : List Call, max + calls.count Call.IncMax < uint64Size →
      min ≤ (z0.run c calls).max) := by
  have h0 : InSync rank min z0 := InSync_new hc.toZipfRank rng min max theta z0 none hmax hnew
  have hz : z0.max = max := (NewSkewedLatest_some c rng min max theta z0 none hnew).1
  refine ⟨fun calls hcur => ?_, fun calls hcnt => ?_⟩
  · exact Uint64_mem_of_InSync hc (InSync_run hc.toZipfRank (by omega) calls h0) hcur
  · have := le_run_max c calls z0 (by rw [hz]; exact hcnt)
    omega

/-- C2.  `NewSkewedLatest` with `max < min` does not fail by itself: the
collaborator is asked for the range `[0, max-min]` with the difference wrapped
into `uint64`, so the error returned is the one of a call with `min ≤ max` and
the same difference, and with the collaborator `specZipf` the calls
`NewSkewedLatest(rng, 5, 3, 0.5)` and `NewSkewedLatest(rng, 2^64-1, 0, 0.5)`
return a generator and a nil error. -/
theorem C2_max_lt_min_not_rejected :
    NewSkewedLatest specZipf [] 5 3 (mkRat 1 2)
        = (some { max := 3, zipf := { rng := [], N := 18446744073709551614, theta := mkRat 1 2 } },
            none) ∧
      NewSkewedLatest specZipf [] 18446744073709551615 0 (mkRat 1 2)
        = (some { max := 0, zipf := { rng := [], N := 1, theta := mkRat 1 2 } }, none) ∧
      (∀ (Rng Theta Err Zipf : Type) (c : ZipfOps Rng Theta Err Zipf) (rng : Rng) (theta : Theta),
        (NewSkewedLatest c rng 5 3 theta).2
            = (NewSkewedLatest c rng 1 18446744073709551615 theta).2 ∧
          (NewSkewedLatest c rng 18446744073709551615 0 theta).2
            = (NewSkewedLatest c rng 0 1 theta).2) := by
  refine ⟨by decide, by decide, ?_⟩
  intro Rng Theta Err Zipf c rng theta
  have e1 : sub64 3 5 = sub64 18446744073709551615 1 := by decide
  have e2 : sub64 0 18446744073709551615 = sub64 1 0 := by decide
  constructor
  · simp only [NewSkewedLatest, e1]
    cases c.NewZipf rng 0 (sub64 18446744073709551615 1) theta <;> rfl
  · simp only [NewSkewedLatest, e2]
    cases c.NewZipf rng 0 (sub64 1 0) theta <;> rfl

/-- C3.  In every generator state `Uint64` draws one sample `r` from the
collaborator and returns `max - r`, the `uint64` subtraction of the source: the
generator afterwards is the same `max` with the collaborator as that one draw
left it, and the value is the integer `max - r` whenever `r ≤ max`. -/
theorem C3_uint64_returns_max_minus_sample (c : ZipfOps Rng Theta Err Zipf)
    (z : SkewedLatest Zipf) :
    (z.Uint64 c).2 = sub64 z.max (c.Uint64 z.zipf).2 ∧
      (z.Uint64 c).1 = { max := z.max, zipf := (c.Uint64 z.zipf).1 } ∧
      (z.max < uint64Size → (c.Uint64 z.zipf).2 ≤ z.max →
        (z.Uint64 c).2 = z.max - (c.Uint64 z.zipf).2) :=
  ⟨rfl, rfl, fun hmax hr => sub64_of_le hr hmax⟩

/-- C4 (as amended).  In every generator state in which the collaborator's
`IncMax` succeeds, `IncMax` returns a nil error and `max` afterwards is
`(max + 1) mod 2^64` for the `max` before the call: `max + 1` when `max` is
below `2^64 - 1`, and 0 when `max` is `2^64 - 1`. -/
theorem C4_incMax_success (c : ZipfOps Rng Theta Err Zipf) (z : SkewedLatest Zipf)
    (h : (c.IncMax z.zipf).2 = none) :
    (z.IncMax c).2 = none ∧ (z.IncMax c).1.max = (z.max + 1) % uint64Size ∧
      (z.max + 1 < uint64Size → (z.IncMax c).1.max = z.max + 1) ∧
      (z.max + 1 = uint64Size → (z.IncMax c).1.max = 0) := by
  rw [IncMax_of_ok c z h]
  refine ⟨rfl, rfl, fun hlt => inc64_of_lt hlt, fun heq => ?_⟩
  show inc64 z.max = 0
  simp only [inc64, uint64Size] at *
  omega

/-- C5.  In every generator state in which the collaborator's `IncMax` fails
with error `e`, `IncMax` returns that same `e` and leaves `max` unchanged; for a
collaborator whose failed `IncMax` leaves its rank, a rank equal to `max - min`
before the call is equal to `max - min` after it. -/
theorem C5_incMax_failure (c : ZipfOps Rng Theta Err Zipf) (z : SkewedLatest Zipf) (e : Err)
    (h : (c.IncMax z.zipf).2 = some e) :
    (z.IncMax c).2 = some e ∧ (z.IncMax c).1.max = z.max ∧
      (z.IncMax c).1.zipf = (c.IncMax z.zipf).1 ∧
      (∀ (rank : Zipf → Nat) (min : Nat),
        (∀ y e1, (c.IncMax y).2 = some e1 → rank (c.IncMax y).1 = rank y) →
        rank z.zipf = sub64 z.max min →
        rank (z.IncMax c).1.zipf = sub64 (z.IncMax c).1.max min) := by
  rw [IncMax_of_err c z e h]
  refine ⟨rfl, rfl, rfl, fun rank min hc hs => ?_⟩
  show rank (c.IncMax z.zipf).1 = sub64 z.max min
  rw [hc z.zipf e h, hs]

/-- C6 (as amended).  For every generator state and every call to `IncMax`,
whatever the collaborator's outcome: with `max` below `2^64 - 1`, `max` after
the call is at least `max` before it and at most `max + 1`; with `max` equal to
`2^64 - 1`, a failed call leaves `max` and a successful call wraps it to 0. -/
theorem C6_incMax_step (c : ZipfOps Rng Theta Err Zipf) (z : SkewedLatest Zipf) :
    (z.max + 1 < uint64Size →
      z.max ≤ (z.IncMax c).1.max ∧ (z.IncMax c).1.max ≤ z.max + 1) ∧
    (z.max + 1 = uint64Size →
      ((c.IncMax z.zipf).2 = none → (z.IncMax c).1.max = 0) ∧
      (∀ e, (c.IncMax z.zipf).2 = some e → (z.IncMax c).1.max = z.max)) := by
  refine ⟨fun hlt => ?_, fun heq => ⟨fun hr => ?_, fun e hr => ?_⟩⟩
  · cases hr : (c.IncMax z.zipf).2 with
    | none =>
      rw [IncMax_of_ok c z hr]
      show z.max ≤ inc64 z.max ∧ inc64 z.max ≤ z.max + 1
      rw [inc64_of_lt hlt]
      omega
    | some e =>
      rw [IncMax_of_err c z e hr]
      show z.max ≤ z.max ∧ z.max ≤ z.max + 1
      omega
  · rw [IncMax_of_ok c z hr]
    show inc64 z.max = 0
    simp only [inc64, uint64Size] at *
    omega
  · rw [IncMax_of_err c z e hr]

/-- C7.  For a collaborator that keeps its rank as `ZipfRank` says (constructed
over `[0, N]` it has rank `N`; `IncMax` adds exactly 1 on success and nothing on
failure; `Uint64` leaves the rank), in every state reached
from a successful `NewSkewedLatest(rng, min, max, theta)` by any sequence of
`IncMax` and `Uint64` calls, the collaborator's upper rank is `max - min` for
the current `max`, in the `uint64` arithmetic of the source; it is the integer
`max - min` whenever `min ≤ max`. -/
theorem C7_rank_in_sync (c : ZipfOps Rng Theta Err Zipf) (rank : Zipf → Nat)
    (hc : ZipfRank c rank) (rng : Rng) (min max : Nat) (theta : Theta)
    (z0 : SkewedLatest Zipf) (calls : List Call)
    (hmin : min < uint64Size) (hmax : max < uint64Size)
    (hnew : NewSkewedLatest c rng min max theta = (some z0, none)) :
    rank (z0.run c calls).zipf = sub64 (z0.run c calls).max min ∧
      (min ≤ (z0.run c calls).max →
        rank (z0.run c calls).zipf = (z0.run c calls).max - min) := by
  have h := InSync_run hc hmin calls (InSync_new hc rng min max theta z0 none hmax hnew)
  exact ⟨h.1, fun hle => by rw [h.1, sub64_of_le hle h.2]⟩

/-- C8.  On every input on which the collaborator's constructor fails with
error `e`, `NewSkewedLatest` returns a nil generator together with `e`; and on
no input does it return a generator together with an error. -/
theorem C8_constructor_error (c : ZipfOps Rng Theta Err Zipf) (rng : Rng) (min max : Nat)
    (theta : Theta) (e : Err) (h : c.NewZipf rng 0 (sub64 max min) theta = .error e) :
    NewSkewedLatest c rng min max theta = (none, some e) ∧
      ∀ (rng1 : Rng) (min1 max1 : Nat) (theta1 : Theta),
        (NewSkewedLatest c rng1 min1 max1 theta1).1.isSome
          = (NewSkewedLatest c rng1 min1 max1 theta1).2.isNone := by
  refine ⟨NewSkewedLatest_of_error c rng min max theta e h, fun rng1 min1 max1 theta1 => ?_⟩
  unfold NewSkewedLatest
  split <;> rfl

/-- C9.  On every input on which the collaborator's constructor succeeds,
`NewSkewedLatest` returns a nil error and a generator whose `max` is the
caller's `max` and whose collaborator is the one constructed from the given
`rng` and `theta` over `[0, max-min]` (the `uint64` difference of the source,
which is the integer `max - min` when `min ≤ max`). -/
theorem C9_constructor_success (c : ZipfOps Rng Theta Err Zipf) (rng : Rng) (min max : Nat)
    (theta : Theta) (zipf : Zipf) (h : c.NewZipf rng 0 (sub64 max min) theta = .ok zipf) :
    NewSkewedLatest c rng min max theta = (some { max := max, zipf := zipf }, none) ∧
      (min ≤ max → max < uint64Size → c.NewZipf rng 0 (max - min) theta = .ok zipf) := by
  refine ⟨NewSkewedLatest_of_ok c rng min max theta zipf h, fun hle hmax => ?_⟩
  rw [← sub64_of_le hle hmax]
  exact h

/-- C10.  `NewDefaultSkewedLatest(rng)` is `NewSkewedLatest(rng, 1, defaultMax,
defaultTheta)`.  With `1 ≤ defaultMax`, for a collaborator that keeps its
contract and accepts the default range and `theta`, it returns a generator and a
nil error, and every value that generator returns before any `IncMax` lies in
`[1, defaultMax]`. -/
theorem C10_default_construction (c : ZipfOps Rng Theta Err Zipf) (rank : Zipf → Nat)
    (hc : ZipfContract c rank) (rng : Rng)
    (hlo : 1 ≤ c.defaultMax) (hhi : c.defaultMax < uint64Size)
    (hacc : ∃ zipf, c.NewZipf rng 0 (c.defaultMax - 1) c.defaultTheta = .ok zipf) :
    NewDefaultSkewedLatest c rng = NewSkewedLatest c rng 1 c.defaultMax c.defaultTheta ∧
      ∃ z : SkewedLatest Zipf, NewDefaultSkewedLatest c rng = (some z, none) ∧
        z.max = c.defaultMax ∧
        ∀ k : Nat,
          1 ≤ ((z.run c (List.replicate k Call.Uint64)).Uint64 c).2 ∧
            ((z.run c (List.replicate k Call.Uint64)).Uint64 c).2 ≤ c.defaultMax := by
  obtain ⟨zipf, hz⟩ := hacc
  rw [← sub64_of_le hlo hhi] at hz
  have hnew := NewSkewedLatest_of_ok c rng 1 c.defaultMax c.defaultTheta zipf hz
  refine ⟨rfl, { max := c.defaultMax, zipf := zipf }, hnew, rfl, fun k => ?_⟩
  have h0 := InSync_new hc.toZipfRank rng 1 c.defaultMax c.defaultTheta _ none hhi hnew
  have h1 : 1 < uint64Size := by decide
  have hk := InSync_run hc.toZipfRank h1 (List.replicate k Call.Uint64) h0
  have hm := run_replicate_Uint64_max c k
    ({ max := c.defaultMax, zipf := zipf } : SkewedLatest Zipf)
  have := Uint64_mem_of_InSync hc hk (by rw [hm]; exact hlo)
  rw [hm] at this
  exact this

/-- C11.  In every generator state, `k` consecutive `Uint64` calls leave `max`
as it was before them (each `Uint64` call leaves `max`), and they leave the rank
of a collaborator whose `Uint64` does not change its rank; so the interval the
returned values are bounded by stays the same. -/
theorem C11_uint64_keeps_max (c : ZipfOps Rng Theta Err Zipf) (z : SkewedLatest Zipf)
    (k : Nat) :
    (z.Uint64 c).1.max = z.max ∧
      (z.run c (List.replicate k Call.Uint64)).max = z.max ∧
      (∀ rank : Zipf → Nat, (∀ y, rank (c.Uint64 y).1 = rank y) →
        rank (z.run c (List.replicate k Call.Uint64)).zipf = rank z.zipf) := by
  refine ⟨rfl, run_replicate_Uint64_max c k z, fun rank hrank => ?_⟩
  induction k generalizing z with
  | zero => rfl
  | succ k ih =>
    show rank (SkewedLatest.run c (z.call c Call.Uint64) (List.replicate k Call.Uint64)).zipf
      = rank z.zipf
    rw [ih (z.call c Call.Uint64)]
    exact hrank z.zipf

/-- C13.  After a successful `IncMax`, which brings `max` to `m'`, and any
number of `Uint64` calls, the next `Uint64` returns `m'` exactly when the
collaborator's sample is 0, and for a sample `r` in `[0, m' - min]`, that is
with `min + r ≤ m'`, it returns a value in `[min, m']`, so never one above
`m'`. -/
theorem C13_new_max_attainable (c : ZipfOps Rng Theta Err Zipf) (z z1 : SkewedLatest Zipf)
    (k : Nat) (hsucc : (c.IncMax z.zipf).2 = none)
    (hz1 : z1 = SkewedLatest.run c (z.IncMax c).1 (List.replicate k Call.Uint64))
    (hr : (c.Uint64 z1.zipf).2 < uint64Size) :
    z1.max = inc64 z.max ∧
      ((z1.Uint64 c).2 = z1.max ↔ (c.Uint64 z1.zipf).2 = 0) ∧
      (∀ min : Nat, min + (c.Uint64 z1.zipf).2 ≤ z1.max →
        min ≤ (z1.Uint64 c).2 ∧ (z1.Uint64 c).2 ≤ z1.max) := by
  have hm : z1.max = inc64 z.max := by
    rw [hz1, run_replicate_Uint64_max c k, IncMax_of_ok c z hsucc]
  have hlt : z1.max < uint64Size := by
    rw [hm]
    simp only [inc64, uint64Size]
    omega
  have hv : (z1.Uint64 c).2 = sub64 z1.max (c.Uint64 z1.zipf).2 := rfl
  refine ⟨hm, ?_, fun min hmin => ?_⟩
  · rw [hv]
    simp only [sub64, uint64Size] at *
    omega
  · rw [hv]
    simp only [sub64, uint64Size] at *
    omega

/-- C14.  For a generator with `max = m`, a `uint64`, and `min ≤ m`, and for the
collaborator states whose sample lies in `[0, m - min]`: the value `Uint64`
returns lies in `[min, m]`; a smaller sample gives a larger value and equal
values come from equal samples; sample 0 gives `m` and sample `m - min` gives
`min`; every `v` in `[min, m]` is the value of the sample `m - v`; the value is
`m - k` exactly when the sample is `k`.  Hence, for any frequencies `w` of the
collaborator states `ys`, the value `m - k` is as frequent as the rank `k`, and
if rank 0 is the most frequent rank then `m` is the most frequent value. -/
theorem C14_order_reversing_bijection (c : ZipfOps Rng Theta Err Zipf) (m min : Nat)
    (hle : min ≤ m) (hm : m < uint64Size) :
    (∀ y : Zipf, (c.Uint64 y).2 ≤ m - min →
      min ≤ ((SkewedLatest.mk m y).Uint64 c).2 ∧ ((SkewedLatest.mk m y).Uint64 c).2 ≤ m) ∧
    (∀ y1 y2 : Zipf, (c.Uint64 y1).2 ≤ m - min → (c.Uint64 y2).2 ≤ m - min →
      ((c.Uint64 y1).2 < (c.Uint64 y2).2 →
        ((SkewedLatest.mk m y2).Uint64 c).2 < ((SkewedLatest.mk m y1).Uint64 c).2) ∧
      (((SkewedLatest.mk m y1).Uint64 c).2 = ((SkewedLatest.mk m y2).Uint64 c).2 →
        (c.Uint64 y1).2 = (c.Uint64 y2).2)) ∧
    (∀ y : Zipf, (c.Uint64 y).2 = 0 → ((SkewedLatest.mk m y).Uint64 c).2 = m) ∧
    (∀ y : Zipf, (c.Uint64 y).2 = m - min → ((SkewedLatest.mk m y).Uint64 c).2 = min) ∧
    (∀ v : Nat, min ≤ v → v ≤ m → m - v ≤ m - min ∧
      ∀ y : Zipf, (c.Uint64 y).2 = m - v → ((SkewedLatest.mk m y).Uint64 c).2 = v) ∧
    (∀ (y : Zipf) (k : Nat), (c.Uint64 y).2 ≤ m - min → k ≤ m - min →
      (((SkewedLatest.mk m y).Uint64 c).2 = m - k ↔ (c.Uint64 y).2 = k)) ∧
    (∀ (w : Zipf → Nat) (ys : List Zipf), (∀ y ∈ ys, (c.Uint64 y).2 ≤ m - min) →
      (∀ k : Nat, k ≤ m - min →
        weight w ys (fun y => decide (((SkewedLatest.mk m y).Uint64 c).2 = m - k))
          = weight w ys (fun y => decide ((c.Uint64 y).2 = k))) ∧
      ((∀ k : Nat, weight w ys (fun y => decide ((c.Uint64 y).2 = k))
          ≤ weight w ys (fun y => decide ((c.Uint64 y).2 = 0))) →
        ∀ v : Nat, weight w ys (fun y => decide (((SkewedLatest.mk m y).Uint64 c).2 = v))
          ≤ weight w ys (fun y => decide (((SkewedLatest.mk m y).Uint64 c).2 = m)))) := by
  have hval : ∀ y : Zipf, (c.Uint64 y).2 ≤ m - min →
      ((SkewedLatest.mk m y).Uint64 c).2 = m - (c.Uint64 y).2 :=
    fun y hy => Uint64_value_of_le c m y hm (by omega)
  have hev : ∀ (y : Zipf) (k : Nat), (c.Uint64 y).2 ≤ m - min → k ≤ m - min →
      (((SkewedLatest.mk m y).Uint64 c).2 = m - k ↔ (c.Uint64 y).2 = k) := by
    intro y k hy hk
    rw [hval y hy]
    omega
  have hfreq : ∀ (w : Zipf → Nat) (ys : List Zipf), (∀ y ∈ ys, (c.Uint64 y).2 ≤ m - min) →
      ∀ k : Nat, k ≤ m - min →
        weight w ys (fun y => decide (((SkewedLatest.mk m y).Uint64 c).2 = m - k))
          = weight w ys (fun y => decide ((c.Uint64 y).2 = k)) := by
    intro w ys hys k hk
    exact weight_congr w ys _ _ (fun y hy => decide_eq_decide.mpr (hev y k (hys y hy) hk))
  refine ⟨fun y hy => ?_, fun y1 y2 h1 h2 => ⟨fun hlt => ?_, fun heq => ?_⟩, fun y hy => ?_,
    fun y hy => ?_, fun v hv1 hv2 => ⟨by omega, fun y hy => ?_⟩, hev,
    fun w ys hys => ⟨hfreq w ys hys, fun hmost v => ?_⟩⟩
  · rw [hval y hy]
    omega
  · rw [hval y1 h1, hval y2 h2]
    omega
  · rw [hval y1 h1, hval y2 h2] at heq
    omega
  · rw [hval y (by omega)]
    omega
  · rw [hval y (by omega)]
    omega
  · rw [hval y (by omega)]
    omega
  · by_cases hv : min ≤ v ∧ v ≤ m
    · have e1 : v = m - (m - v) := by omega
      have e2 := hfreq w ys hys (m - v) (by omega)
      have e3 := hfreq w ys hys 0 (by omega)
      rw [← e1] at e2
      rw [Nat.sub_zero] at e3
      rw [e2, e3]
      exact hmost (m - v)
    · rw [weight_eq_zero w ys _ (fun y hy => ?_)]
      · exact Nat.zero_le _
      · have h1 := hval y (hys y hy)
        have h2 := hys y hy
        exact decide_eq_false (by omega)

end Claims

/-! ## Concrete runs -/

/-- C1, the claim as stated fails.  `NewSkewedLatest(rng, 1, 2^64-1, 0.5)` has
`min ≤ max` and succeeds with the collaborator `specZipf`; the collaborator's
`IncMax` then succeeds, `max` wraps to 0, and the next `Uint64`, whose sample 3
is within the collaborator's rank, returns `2^64 - 3`, above the current `max`. -/
theorem C1_counterexample :
    ∃ z0 : SkewedLatest SpecZipf,
      NewSkewedLatest specZipf [3] 1 18446744073709551615 (mkRat 1 2) = (some z0, none) ∧
      (z0.IncMax specZipf).2 = none ∧
      (z0.run specZipf [Call.IncMax]).max = 0 ∧
      (specZipf.Uint64 (z0.run specZipf [Call.IncMax]).zipf).2 = 3 ∧
      (specZipf.Uint64 (z0.run specZipf [Call.IncMax]).zipf).2
        ≤ (z0.run specZipf [Call.IncMax]).zipf.N ∧
      ((z0.run specZipf [Call.IncMax]).Uint64 specZipf).2 = 18446744073709551613 ∧
      ¬ (1 ≤ ((z0.run specZipf [Call.IncMax]).Uint64 specZipf).2 ∧
          ((z0.run specZipf [Call.IncMax]).Uint64 specZipf).2
            ≤ (z0.run specZipf [Call.IncMax]).max) :=
  ⟨{ max := 18446744073709551615,
     zipf := { rng := [3], N := 18446744073709551614, theta := mkRat 1 2 } },
    by decide, by decide, by decide, by decide, by decide, by decide, by decide⟩

/-- C1 (as amended) at `NewSkewedLatest(rng, 5, 8, 0.5)` followed by `IncMax`:
the next `Uint64` returns a value in `[5, 9]`. -/
theorem C1_witness :
    5 ≤ 8 ∧ 8 < uint64Size ∧
      NewSkewedLatest specZipf [4, 9] 5 8 (mkRat 1 2)
        = (some { max := 8, zipf := { rng := [4, 9], N := 3, theta := mkRat 1 2 } }, none) ∧
      5 ≤ (SkewedLatest.run specZipf
            { max := 8, zipf := { rng := [4, 9], N := 3, theta := mkRat 1 2 } }
            [Call.IncMax]).max ∧
      (5 ≤ ((SkewedLatest.run specZipf
            { max := 8, zipf := { rng := [4, 9], N := 3, theta := mkRat 1 2 } }
            [Call.IncMax]).Uint64 specZipf).2 ∧
        ((SkewedLatest.run specZipf
            { max := 8, zipf := { rng := [4, 9], N := 3, theta := mkRat 1 2 } }
            [Call.IncMax]).Uint64 specZipf).2
          ≤ (SkewedLatest.run specZipf
            { max := 8, zipf := { rng := [4, 9], N := 3, theta := mkRat 1 2 } }
            [Call.IncMax]).max) :=
  ⟨by decide, by decide, by decide, by decide,
    (C1_uint64_within_bounds specZipf SpecZipf.N specZipf_contract [4, 9] 5 8 (mkRat 1 2)
      { max := 8, zipf := { rng := [4, 9], N := 3, theta := mkRat 1 2 } }
      (by decide) (by decide) (by decide)).1 [Call.IncMax] (by decide)⟩

/-- C4, the claim as stated fails.  The generator that
`NewSkewedLatest(rng, 1, 2^64-1, 0.5)` returns with the collaborator `specZipf`
has `max = 2^64-1`; the collaborator's `IncMax` succeeds on it, `IncMax` returns
a nil error, and `max` afterwards is 0, not `2^64`, the old `max` plus 1. -/
theorem C4_counterexample :
    ∃ z0 : SkewedLatest SpecZipf,
      NewSkewedLatest specZipf [] 1 18446744073709551615 (mkRat 1 2) = (some z0, none) ∧
      (specZipf.IncMax z0.zipf).2 = none ∧
      (z0.IncMax specZipf).2 = none ∧
      z0.max + 1 = 18446744073709551616 ∧
      (z0.IncMax specZipf).1.max = 0 ∧
      (z0.IncMax specZipf).1.max ≠ z0.max + 1 :=
  ⟨{ max := 18446744073709551615,
     zipf := { rng := [], N := 18446744073709551614, theta := mkRat 1 2 } },
    by decide, by decide, by decide, by decide, by decide, by decide⟩

/-- C4 (as amended) at a generator with `max = 8` whose collaborator has rank
3. -/
theorem C4_witness :
    (specZipf.IncMax { rng := [4, 9], N := 3, theta := mkRat 1 2 }).2 = none ∧
      (SkewedLatest.IncMax specZipf
        { max := 8, zipf := { rng := [4, 9], N := 3, theta := mkRat 1 2 } }).1.max = 9 :=
  ⟨by decide,
    (C4_incMax_success specZipf
      { max := 8, zipf := { rng := [4, 9], N := 3, theta := mkRat 1 2 } }
      (by decide)).2.2.1 (by decide)⟩

/-- C5 at the generator of `NewSkewedLatest(rng, 0, 2^64-1, 0.5)`: `max` is
`2^64-1`, and the collaborator has rank `2^64-1` and cannot grow. -/
theorem C5_witness :
    (specZipf.IncMax { rng := [], N := 18446744073709551615, theta := mkRat 1 2 }).2
        = some ZipfError.RangeExhausted ∧
      (SkewedLatest.IncMax specZipf
        { max := 18446744073709551615,
          zipf := { rng := [], N := 18446744073709551615, theta := mkRat 1 2 } }).2
        = some ZipfError.RangeExhausted ∧
      (SkewedLatest.IncMax specZipf
        { max := 18446744073709551615,
          zipf := { rng := [], N := 18446744073709551615, theta := mkRat 1 2 } }).1.max
        = 18446744073709551615 :=
  have h := C5_incMax_failure specZipf
    { max := 18446744073709551615,
      zipf := { rng := [], N := 18446744073709551615, theta := mkRat 1 2 } }
    ZipfError.RangeExhausted (by decide)
  ⟨by decide, h.1, h.2.1⟩

/-- C6, the claim as stated fails.  The generator that
`NewSkewedLatest(rng, 1, 2^64-1, 0.5)` returns with the collaborator `specZipf`
has `max = 2^64-1`; `IncMax` succeeds on it and `max` afterwards is 0, below
`max` before the call. -/
theorem C6_counterexample :
    ∃ z0 : SkewedLatest SpecZipf,
      NewSkewedLatest specZipf [] 1 18446744073709551615 (mkRat 1 2) = (some z0, none) ∧
      z0.max = 18446744073709551615 ∧
      (z0.IncMax specZipf).2 = none ∧
      (z0.IncMax specZipf).1.max = 0 ∧
      ¬ (z0.max ≤ (z0.IncMax specZipf).1.max) :=
  ⟨{ max := 18446744073709551615,
     zipf := { rng := [], N := 18446744073709551614, theta := mkRat 1 2 } },
    by decide, by decide, by decide, by decide, by decide⟩

/-- C6 (as amended) at a generator with `max = 8`. -/
theorem C6_witness :
    8 ≤ (SkewedLatest.IncMax specZipf
          { max := 8, zipf := { rng := [4, 9], N := 3, theta := mkRat 1 2 } }).1.max ∧
      (SkewedLatest.IncMax specZipf
          { max := 8, zipf := { rng := [4, 9], N := 3, theta := mkRat 1 2 } }).1.max ≤ 8 + 1 :=
  (C6_incMax_step specZipf
    { max := 8, zipf := { rng := [4, 9], N := 3, theta := mkRat 1 2 } }).1 (by decide)

/-- C7 at `NewSkewedLatest(rng, 5, 8, 0.5)` followed by `IncMax`, `Uint64`,
`IncMax`: the rank is 5 and `max` is 10. -/
theorem C7_witness :
    5 < uint64Size ∧ 8 < uint64Size ∧
      NewSkewedLatest specZipf [4, 9] 5 8 (mkRat 1 2)
        = (some { max := 8, zipf := { rng := [4, 9], N := 3, theta := mkRat 1 2 } }, none) ∧
      (SkewedLatest.run specZipf
          { max := 8, zipf := { rng := [4, 9], N := 3, theta := mkRat 1 2 } }
          [Call.IncMax, Call.Uint64, Call.IncMax]).zipf.N
        = sub64 (SkewedLatest.run specZipf
          { max := 8, zipf := { rng := [4, 9], N := 3, theta := mkRat 1 2 } }
          [Call.IncMax, Call.Uint64, Call.IncMax]).max 5 :=
  ⟨by decide, by decide, by decide,
    (C7_rank_in_sync specZipf SpecZipf.N specZipf_contract.toZipfRank [4, 9] 5 8 (mkRat 1 2)
      { max := 8, zipf := { rng := [4, 9], N := 3, theta := mkRat 1 2 } }
      [Call.IncMax, Call.Uint64, Call.IncMax] (by decide) (by decide) (by decide)).1⟩

/-- C8 at `NewSkewedLatest(rng, 5, 8, -0.5)`, which the collaborator `specZipf`
rejects. -/
theorem C8_witness :
    specZipf.NewZipf [4, 9] 0 (sub64 8 5) (mkRat (-1) 2) = .error ZipfError.InvalidParameter ∧
      NewSkewedLatest specZipf [4, 9] 5 8 (mkRat (-1) 2)
        = (none, some ZipfError.InvalidParameter) :=
  ⟨rfl,
    (C8_constructor_error specZipf [4, 9] 5 8 (mkRat (-1) 2) ZipfError.InvalidParameter
      (by rfl)).1⟩

/-- C9 at `NewSkewedLatest(rng, 5, 8, 0.5)`. -/
theorem C9_witness :
    specZipf.NewZipf [4, 9] 0 (sub64 8 5) (mkRat 1 2)
        = .ok { rng := [4, 9], N := 3, theta := mkRat 1 2 } ∧
      NewSkewedLatest specZipf [4, 9] 5 8 (mkRat 1 2)
        = (some { max := 8, zipf := { rng := [4, 9], N := 3, theta := mkRat 1 2 } }, none) :=
  ⟨rfl,
    (C9_constructor_success specZipf [4, 9] 5 8 (mkRat 1 2)
      { rng := [4, 9], N := 3, theta := mkRat 1 2 } rfl).1⟩

/-- C10 with the collaborator `specZipf`: the default construction succeeds and
the first two values lie in `[1, defaultMax]`. -/
theorem C10_witness :
    1 ≤ specZipf.defaultMax ∧ specZipf.defaultMax < uint64Size ∧
      (∃ zipf, specZipf.NewZipf [4, 9] 0 (specZipf.defaultMax - 1) specZipf.defaultTheta
        = .ok zipf) ∧
      ∃ z : SkewedLatest SpecZipf, NewDefaultSkewedLatest specZipf [4, 9] = (some z, none) ∧
        z.max = specZipf.defaultMax ∧
        ∀ k : Nat,
          1 ≤ ((z.run specZipf (List.replicate k Call.Uint64)).Uint64 specZipf).2 ∧
            ((z.run specZipf (List.replicate k Call.Uint64)).Uint64 specZipf).2
              ≤ specZipf.defaultMax :=
  ⟨by decide, by decide, ⟨_, rfl⟩,
    (C10_default_construction specZipf SpecZipf.N specZipf_contract [4, 9]
      (by decide) (by decide) ⟨_, rfl⟩).2⟩

/-- C13 at a generator with `max = 8` whose collaborator has rank 3: `IncMax`
succeeds, `max` is 9, and the next `Uint64`, whose sample is 0, returns 9. -/
theorem C13_witness :
    (specZipf.IncMax { rng := [5], N := 3, theta := mkRat 1 2 }).2 = none ∧
      (specZipf.Uint64 { rng := [5], N := 4, theta := mkRat 1 2 }).2 = 0 ∧
      (SkewedLatest.Uint64 specZipf
        { max := 9, zipf := { rng := [5], N := 4, theta := mkRat 1 2 } }).2 = 9 :=
  ⟨by decide, by decide,
    (C13_new_max_attainable specZipf
      { max := 8, zipf := { rng := [5], N := 3, theta := mkRat 1 2 } }
      { max := 9, zipf := { rng := [5], N := 4, theta := mkRat 1 2 } }
      0 (by decide) (by decide) (by decide)).2.1.mpr (by decide)⟩

/-- C14 at `max = 9`, `min = 5`: the sample 3 gives the value 6, and the value
is 6 exactly when the sample is 3. -/
theorem C14_witness :
    5 ≤ 9 ∧ 9 < uint64Size ∧
      (specZipf.Uint64 { rng := [8], N := 4, theta := mkRat 1 2 }).2 = 3 ∧
      (SkewedLatest.Uint64 specZipf
        { max := 9, zipf := { rng := [8], N := 4, theta := mkRat 1 2 } }).2 = 9 - 3 :=
  ⟨by decide, by decide, by decide,
    ((C14_order_reversing_bijection specZipf 9 5 (by decide) (by decide)).2.2.2.2.2.1
      { rng := [8], N := 4, theta := mkRat 1 2 } 3 (by decide) (by decide)).mpr (by decide)⟩

end randvar
